import Mathlib

/-!
Verification of the pySim-trace core: the trace loop of `src/pySim-trace.py`
(`Tracer.main`, lines 92-115) together with the surrounding data model
(command registry, APDU decoder, card model / runtime state, command
interpreters).  The trace loop itself is translated from the source; the
collaborating components live in the pySim library outside the shown source
and are modelled from the specification, each such definition carrying a
doc comment beginning `Modelled from the spec:`.
-/

namespace PySimTrace

/-- A raw APDU exchange (spec §3 RawExchange): class byte, instruction byte,
parameter bytes, logical channel, command data (here: the decoded target
identifier used by selection commands) and the response status word. -/
structure Apdu where
  cla : Nat
  ins : Nat
  p1 : Nat
  p2 : Nat
  lchan : Nat
  data : String
  sw : Nat
deriving DecidableEq

/-- An event delivered by the source (spec §4.1): either a card-reset signal
(`CardReset` in src/pySim-trace.py line 99) or an APDU exchange. -/
inductive Event where
  | cardReset : Event
  | apdu : Apdu → Event
deriving DecidableEq

/-- The APDU carried by an event, if any. -/
def eventApdu : Event → Option Apdu
  | .cardReset => none
  | .apdu a => some a

/-- Classification of a command interpreter: the SELECT family (`UiccSelect`),
the STATUS family (`UiccStatus`), any other registered command, or the
catch-all for unrecognized traffic (spec §4.4). -/
inductive CmdKind where
  | select : CmdKind
  | status : CmdKind
  | other : CmdKind
  | unknown : CmdKind
deriving DecidableEq

def isSelectKind : CmdKind → Bool
  | .select => true
  | _ => false

def isStatusKind : CmdKind → Bool
  | .status => true
  | _ => false

/-- Modelled from the spec: a CommandKey (spec §3) — the (masked class byte,
instruction byte) registry key, together with the class-byte mask used for
matching (spec §4.2). -/
structure CommandKey where
  cla : Nat
  ins : Nat
  mask : Nat
deriving DecidableEq

/-- Modelled from the spec: a CommandDescriptor (spec §3) — human-readable
name plus the interpreter family it constructs. -/
structure CommandDescriptor where
  name : String
  kind : CmdKind
deriving DecidableEq

/-- Modelled from the spec: a command registry is an ordered list of
registrations; later registrations override earlier ones on key collision
(spec §4.2; the comment at src/pySim-trace.py lines 28-29 documents the
same override-last policy for `ApduCommands`). -/
abbrev Registry := List (CommandKey × CommandDescriptor)

/-- Modelled from the spec: key matching compares the instruction byte and
the masked class byte (spec §4.2: "the registry must compare against the
masked value, not the raw byte"). -/
def keyMatches (k : CommandKey) (cla ins : Nat) : Bool :=
  ins == k.ins && (cla &&& k.mask) == k.cla

/-- Modelled from the spec: `lookup(classByte, instructionByte)` returns the
descriptor of the latest matching registration — later entries silently
override earlier ones sharing a key (spec §4.2). -/
def lookup (r : Registry) (cla ins : Nat) : Option CommandDescriptor :=
  (r.reverse.find? (fun e => keyMatches e.1 cla ins)).map (fun e => e.2)

/-- Modelled from the spec: `merge(otherRegistry)` — additive merging, the
later registry's entries coming after (and hence overriding) the earlier
ones (spec §4.2; src/pySim-trace.py line 34 builds the global set this way). -/
def merge (r1 r2 : Registry) : Registry := r1 ++ r2

/-- Modelled from the spec: a node of the card-model tree (spec §3): a file
or application with a name and children. -/
inductive CardNode where
  | mk (name : String) (children : List CardNode)

def CardNode.name : CardNode → String
  | .mk n _ => n

def CardNode.children : CardNode → List CardNode
  | .mk _ cs => cs

/-- The child of a node list carrying the given identifier, if any. -/
def childNamed (cs : List CardNode) (id : String) : Option CardNode :=
  cs.find? (fun c => c.name == id)

/-- Resolve a path of identifiers downward from a node. -/
def walk (n : CardNode) : List String → Option CardNode
  | [] => some n
  | id :: rest =>
    match childNamed n.children id with
    | some c => walk c rest
    | none => none

/-- Modelled from the spec: RuntimeState (spec §3, §4.5) — the static card
tree plus, per logical channel, the cursor (path from the root) of the
currently selected node.  A channel with no recorded cursor is at the root. -/
structure RuntimeState where
  tree : CardNode
  cursors : List (Nat × List String)

/-- Modelled from the spec: the per-channel cursor; the root (empty path)
when the channel has never selected anything (spec §3). -/
def RuntimeState.cursor (rs : RuntimeState) (ch : Nat) : List String :=
  (rs.cursors.lookup ch).getD []

/-- Modelled from the spec: `RuntimeState.reset` collapses every channel's
cursor back to the tree root (spec §4.5; invoked at src/pySim-trace.py
line 100 on a CardReset event). -/
def RuntimeState.reset (rs : RuntimeState) : RuntimeState :=
  { rs with cursors := [] }

/-- Modelled from the spec: `currentNode(channel)` (spec §4.5). -/
def RuntimeState.currentNode (rs : RuntimeState) (ch : Nat) : Option CardNode :=
  walk rs.tree (rs.cursor ch)

/-- Record a new cursor for a channel. -/
def RuntimeState.setCursor (rs : RuntimeState) (ch : Nat) (p : List String) :
    RuntimeState :=
  { rs with cursors := (ch, p) :: rs.cursors }

/-- Modelled from the spec: `selectChild(channel, identifier)` (spec §4.5) —
moves the cursor to the named child of the current node when it exists,
returns `none` (NotFound) otherwise, leaving the state untouched. -/
def RuntimeState.selectChild (rs : RuntimeState) (ch : Nat) (id : String) :
    Option RuntimeState :=
  match rs.currentNode ch with
  | none => none
  | some n =>
    match childNamed n.children id with
    | none => none
    | some _ => some (rs.setCursor ch (rs.cursor ch ++ [id]))

/-- Render a cursor as the slash-separated path string starting at the root
(spec §8 scenario: `MF/DF_TELECOM`). -/
def pathString (tree : CardNode) (p : List String) : String :=
  String.intercalate "/" (tree.name :: p)

/-- A command interpreter as instantiated by the decoder for one exchange
(spec §3): display name, family, and the raw exchange it interprets. -/
structure Interp where
  name : String
  kind : CmdKind
  apdu : Apdu
deriving DecidableEq

/-- The record produced for one processed exchange: the fields printed by
`Tracer.format_capdu` (src/pySim-trace.py line 89): logical channel number,
name, path string, status-word column, processed text — plus the interpreter
family and the originating exchange. -/
structure ProcessedCmd where
  lchan_nr : Nat
  name : String
  kind : CmdKind
  apdu : Apdu
  path_str : String
  col_sw : Nat
  processed : String
deriving DecidableEq

/-- Build the record for an interpreter from its resolved path string and
processed text. -/
def mkRecord (i : Interp) (path : String) (txt : String) : ProcessedCmd :=
  { lchan_nr := i.apdu.lchan, name := i.name, kind := i.kind, apdu := i.apdu,
    path_str := path, col_sw := i.apdu.sw, processed := txt }

/-- Modelled from the spec: `ApduDecoder.input` (spec §4.3; invoked at
src/pySim-trace.py line 105) — looks up the registry by (class,
instruction); a miss yields the generic/unknown interpreter instead of
failing. -/
def ApduDecoder.input (reg : Registry) (a : Apdu) : Interp :=
  match lookup reg a.cla a.ins with
  | some d => { name := d.name, kind := d.kind, apdu := a }
  | none => { name := "unknown", kind := .unknown, apdu := a }

/-- Modelled from the spec: processing of a selection command (spec §4.4) —
resolve the target against the current cursor's children; on success move
the cursor; on failure leave the cursor unchanged and record the failure in
the processed text rather than raising. -/
def processSelect (i : Interp) (rs : RuntimeState) : RuntimeState × ProcessedCmd :=
  let ch := i.apdu.lchan
  let target := i.apdu.data
  match rs.selectChild ch target with
  | some rs' =>
    (rs', mkRecord i (pathString rs.tree (rs.cursor ch ++ [target]))
      ("SELECT " ++ target))
  | none =>
    (rs, mkRecord i (pathString rs.tree (rs.cursor ch))
      ("SELECT " ++ target ++ ": file not found"))

/-- Modelled from the spec: the `process(runtimeState)` operation of the
interpreter family (spec §4.4; invoked at src/pySim-trace.py line 107):
selection commands may move the cursor; status commands render state
without mutation; other known commands summarize their effect; the unknown
catch-all performs no state mutation and reports the command as
unrecognized. -/
def Interp.process (i : Interp) (rs : RuntimeState) : RuntimeState × ProcessedCmd :=
  match i.kind with
  | .select => processSelect i rs
  | .status =>
    (rs, mkRecord i (pathString rs.tree (rs.cursor i.apdu.lchan)) "STATUS")
  | .other =>
    (rs, mkRecord i (pathString rs.tree (rs.cursor i.apdu.lchan)) i.name)
  | .unknown =>
    (rs, mkRecord i (pathString rs.tree (rs.cursor i.apdu.lchan))
      "unrecognized command")

/-- The tracer's output-suppression configuration (src/pySim-trace.py
lines 83-84). -/
structure TracerCfg where
  suppress_select : Bool
  suppress_status : Bool
deriving DecidableEq

/-- The default configuration: both toggles default to suppressed
(`kwargs.get(..., True)` in `Tracer.__init__`, src/pySim-trace.py
lines 83-84; the argparse `store_false` options at lines 121-124 likewise
default to True). -/
def defaultCfg : TracerCfg := { suppress_select := true, suppress_status := true }

/-- The suppression filter of the trace loop (src/pySim-trace.py
lines 110-113): skip output for `UiccSelect` when `suppress_select`, and
for `UiccStatus` when `suppress_status`. -/
def suppressed (cfg : TracerCfg) (pc : ProcessedCmd) : Bool :=
  (cfg.suppress_select && isSelectKind pc.kind) ||
  (cfg.suppress_status && isStatusKind pc.kind)

/-- Everything one iteration of the trace loop does: the state it leaves
behind, the record it produced (pre-filter), the record it emitted
(post-filter), and — for instrumentation — the exchanges it handed to the
decoder and to `process`. -/
structure StepOut where
  rs : RuntimeState
  pre : Option ProcessedCmd
  emitted : Option ProcessedCmd
  decoded : List Apdu
  processedOn : List Apdu

/-- One iteration of `Tracer.main` (src/pySim-trace.py lines 94-115): on a
CardReset, reset the runtime state and continue with no output; otherwise
decode the exchange, invoke `process` (which may modify the runtime state),
then apply the suppression filter and, if not suppressed, emit the record. -/
def step (cfg : TracerCfg) (reg : Registry) (rs : RuntimeState) : Event → StepOut
  | .cardReset =>
    { rs := rs.reset, pre := none, emitted := none, decoded := [], processedOn := [] }
  | .apdu a =>
    let inst := ApduDecoder.input reg a
    let pr := inst.process rs
    { rs := pr.1
      pre := some pr.2
      emitted := if suppressed cfg pr.2 then none else some pr.2
      decoded := [a]
      processedOn := [a] }

/-- The cumulative outcome of running the trace loop over a finite event
sequence. -/
structure TraceOut where
  finalState : RuntimeState
  emitted : List ProcessedCmd
  pre : List ProcessedCmd
  decoded : List Apdu
  processedOn : List Apdu

/-- `Tracer.main` (src/pySim-trace.py lines 92-115) over a finite event
sequence: events are pulled one at a time in arrival order, each fully
handled before the next is read; records accumulate in emission order. -/
def traceRun (cfg : TracerCfg) (reg : Registry) (rs : RuntimeState) :
    List Event → TraceOut
  | [] => { finalState := rs, emitted := [], pre := [], decoded := [], processedOn := [] }
  | ev :: evs =>
    let o := step cfg reg rs ev
    let t := traceRun cfg reg o.rs evs
    { finalState := t.finalState
      emitted := o.emitted.toList ++ t.emitted
      pre := o.pre.toList ++ t.pre
      decoded := o.decoded ++ t.decoded
      processedOn := o.processedOn ++ t.processedOn }

/-- The trace loop as a state machine (spec §4.6): `running` holds the
runtime state, the events the source has yet to deliver, and the records
emitted so far; `terminated` is the terminal state reached on
end-of-stream. -/
inductive LoopState where
  | running (rs : RuntimeState) (evs : List Event) (recs : List ProcessedCmd)
  | terminated (recs : List ProcessedCmd)

/-- One transition of the trace-loop state machine: read the next event from
the source (end-of-stream terminates the loop cleanly), otherwise perform
one iteration of `Tracer.main`. -/
def loopStep (cfg : TracerCfg) (reg : Registry) : LoopState → LoopState
  | .running _rs [] recs => .terminated recs
  | .running rs (ev :: evs) recs =>
    let o := step cfg reg rs ev
    .running o.rs evs (recs ++ o.emitted.toList)
  | .terminated recs => .terminated recs

/-! ### Helper lemmas -/

/-- The record produced by `process` carries the interpreter's exchange. -/
theorem Interp.process_snd_apdu (i : Interp) (rs : RuntimeState) :
    (i.process rs).2.apdu = i.apdu := by
  cases i with
  | mk n k a =>
    cases k with
    | select =>
      simp only [Interp.process, processSelect]
      cases h : RuntimeState.selectChild rs a.lchan a.data <;> simp [h, mkRecord]
    | status => rfl
    | other => rfl
    | unknown => rfl

/-- The record produced by `process` carries the interpreter's family. -/
theorem Interp.process_snd_kind (i : Interp) (rs : RuntimeState) :
    (i.process rs).2.kind = i.kind := by
  cases i with
  | mk n k a =>
    cases k with
    | select =>
      simp only [Interp.process, processSelect]
      cases h : RuntimeState.selectChild rs a.lchan a.data <;> simp [h, mkRecord]
    | status => rfl
    | other => rfl
    | unknown => rfl

/-- The decoder hands the raw exchange through to the interpreter. -/
theorem ApduDecoder.input_apdu (reg : Registry) (a : Apdu) :
    (ApduDecoder.input reg a).apdu = a := by
  simp only [ApduDecoder.input]
  cases lookup reg a.cla a.ins <;> rfl

/-- Unfolding of `step` on a CardReset event. -/
theorem step_cardReset (cfg : TracerCfg) (reg : Registry) (rs : RuntimeState) :
    step cfg reg rs Event.cardReset =
      { rs := rs.reset, pre := none, emitted := none, decoded := [], processedOn := [] } :=
  rfl

/-- Unfolding of `step` on an APDU event. -/
theorem step_apdu (cfg : TracerCfg) (reg : Registry) (rs : RuntimeState) (a : Apdu) :
    step cfg reg rs (Event.apdu a) =
      { rs := ((ApduDecoder.input reg a).process rs).1
        pre := some ((ApduDecoder.input reg a).process rs).2
        emitted :=
          if suppressed cfg ((ApduDecoder.input reg a).process rs).2 then none
          else some ((ApduDecoder.input reg a).process rs).2
        decoded := [a]
        processedOn := [a] } :=
  rfl

/-- Unfolding of `traceRun` on the empty event sequence. -/
theorem traceRun_nil (cfg : TracerCfg) (reg : Registry) (rs : RuntimeState) :
    traceRun cfg reg rs [] = ⟨rs, [], [], [], []⟩ :=
  rfl

/-- Unfolding of `traceRun` on a nonempty event sequence. -/
theorem traceRun_cons (cfg : TracerCfg) (reg : Registry) (rs : RuntimeState)
    (ev : Event) (evs : List Event) :
    traceRun cfg reg rs (ev :: evs) =
      { finalState := (traceRun cfg reg (step cfg reg rs ev).rs evs).finalState
        emitted := (step cfg reg rs ev).emitted.toList ++
          (traceRun cfg reg (step cfg reg rs ev).rs evs).emitted
        pre := (step cfg reg rs ev).pre.toList ++
          (traceRun cfg reg (step cfg reg rs ev).rs evs).pre
        decoded := (step cfg reg rs ev).decoded ++
          (traceRun cfg reg (step cfg reg rs ev).rs evs).decoded
        processedOn := (step cfg reg rs ev).processedOn ++
          (traceRun cfg reg (step cfg reg rs ev).rs evs).processedOn } :=
  rfl

/-- The pre-filter record stream is exactly the APDU stream, in order. -/
theorem traceRun_pre_map (cfg : TracerCfg) (reg : Registry) (rs : RuntimeState)
    (evs : List Event) :
    (traceRun cfg reg rs evs).pre.map ProcessedCmd.apdu = evs.filterMap eventApdu := by
  induction evs generalizing rs with
  | nil => rfl
  | cons ev evs ih =>
    cases ev with
    | cardReset => simpa [traceRun_cons, step_cardReset, eventApdu] using ih rs.reset
    | apdu a =>
      simp [traceRun_cons, step_apdu, eventApdu, Interp.process_snd_apdu,
        ApduDecoder.input_apdu, ih]

/-- Emitted records are exactly the pre-filter records surviving the
suppression filter. -/
theorem traceRun_emitted_filter (cfg : TracerCfg) (reg : Registry)
    (rs : RuntimeState) (evs : List Event) :
    (traceRun cfg reg rs evs).emitted =
      (traceRun cfg reg rs evs).pre.filter (fun pc => !suppressed cfg pc) := by
  induction evs generalizing rs with
  | nil => rfl
  | cons ev evs ih =>
    cases ev with
    | cardReset => simpa [traceRun_cons, step_cardReset] using ih rs.reset
    | apdu a =>
      cases h : suppressed cfg ((ApduDecoder.input reg a).process rs).2 <;>
        simp [traceRun_cons, step_apdu, h, ih]

/-- The state left by one loop iteration does not depend on the suppression
configuration. -/
theorem step_rs_cfg_indep (cfg1 cfg2 : TracerCfg) (reg : Registry)
    (rs : RuntimeState) (ev : Event) :
    (step cfg1 reg rs ev).rs = (step cfg2 reg rs ev).rs := by
  cases ev <;> rfl

/-- The final runtime state does not depend on the suppression configuration. -/
theorem traceRun_finalState_cfg_indep (cfg1 cfg2 : TracerCfg) (reg : Registry)
    (rs : RuntimeState) (evs : List Event) :
    (traceRun cfg1 reg rs evs).finalState = (traceRun cfg2 reg rs evs).finalState := by
  induction evs generalizing rs with
  | nil => rfl
  | cons ev evs ih =>
    rw [traceRun_cons, traceRun_cons]
    show (traceRun cfg1 reg (step cfg1 reg rs ev).rs evs).finalState = _
    rw [step_rs_cfg_indep cfg1 cfg2]
    exact ih _

/-- Running the loop-state machine for one step per pending event plus the
final end-of-stream read lands in `terminated` carrying all emitted records. -/
theorem loopStep_iterate (cfg : TracerCfg) (reg : Registry) (evs : List Event) :
    ∀ (rs : RuntimeState) (recs : List ProcessedCmd),
      (loopStep cfg reg)^[evs.length + 1] (LoopState.running rs evs recs) =
        LoopState.terminated (recs ++ (traceRun cfg reg rs evs).emitted) := by
  induction evs with
  | nil =>
    intro rs recs
    simp [loopStep, traceRun_nil]
  | cons ev evs ih =>
    intro rs recs
    have h1 : (ev :: evs).length + 1 = (evs.length + 1) + 1 := by simp
    rw [h1, Function.iterate_succ_apply]
    rw [show loopStep cfg reg (LoopState.running rs (ev :: evs) recs) =
        LoopState.running (step cfg reg rs ev).rs evs
          (recs ++ (step cfg reg rs ev).emitted.toList) from rfl]
    rw [ih]
    simp [traceRun_cons, List.append_assoc]

/-! ### The claims -/

/-- C1: a CardResetSignal event makes the loop invoke `RuntimeState.reset` and
continue with no record for that event — the trace of `CardReset :: evs`
equals the trace of `evs` from the reset state — and the reset collapses
every channel's cursor back to the tree root, so the next selection-relative
lookup resolves exactly as from a state with no prior selection. -/
theorem c1_card_reset_collapses_cursors (cfg : TracerCfg) (reg : Registry)
    (rs : RuntimeState) (evs : List Event) :
    traceRun cfg reg rs (Event.cardReset :: evs) = traceRun cfg reg rs.reset evs
    ∧ (∀ ch, rs.reset.cursor ch = [])
    ∧ (∀ ch, rs.reset.currentNode ch = some rs.tree)
    ∧ (∀ ch id, rs.reset.selectChild ch id =
        (RuntimeState.mk rs.tree []).selectChild ch id) :=
  ⟨rfl, fun _ => rfl, fun _ => rfl, fun _ _ => rfl⟩

/-- C2: the pre-filter record stream of the trace loop equals the stream of
arriving exchanges, one record per exchange, in strict arrival order —
never reordered or batched. -/
theorem c2_records_in_arrival_order (cfg : TracerCfg) (reg : Registry)
    (rs : RuntimeState) (evs : List Event) :
    (traceRun cfg reg rs evs).pre.map ProcessedCmd.apdu = evs.filterMap eventApdu :=
  traceRun_pre_map cfg reg rs evs

/-- C6: registry merging is override-last — if a later registry resolves a
key to descriptor `d`, the merged registry resolves it to `d` as well, the
collision being silent rather than an error. -/
theorem c6_merge_override_last (r1 r2 : Registry) (cla ins : Nat)
    (d : CommandDescriptor) (h : lookup r2 cla ins = some d) :
    lookup (merge r1 r2) cla ins = some d := by
  unfold lookup merge
  unfold lookup at h
  rw [List.reverse_append, List.find?_append]
  rcases Option.map_eq_some'.mp h with ⟨e, he, hed⟩
  rw [he]
  simp [hed]

/-- C6 witness: merging a registry binding the key to descriptor A with a
later one binding it to B makes lookup return B. -/
theorem c6_merge_override_last_witness :
    lookup [(⟨0, 0xA4, 0xFF⟩, ⟨"SELECT-B", CmdKind.select⟩)] 0 0xA4 =
      some ⟨"SELECT-B", CmdKind.select⟩
    ∧ lookup
        (merge [(⟨0, 0xA4, 0xFF⟩, ⟨"SELECT-A", CmdKind.other⟩)]
          [(⟨0, 0xA4, 0xFF⟩, ⟨"SELECT-B", CmdKind.select⟩)]) 0 0xA4 =
      some ⟨"SELECT-B", CmdKind.select⟩ :=
  ⟨by decide,
    c6_merge_override_last [(⟨0, 0xA4, 0xFF⟩, ⟨"SELECT-A", CmdKind.other⟩)]
      [(⟨0, 0xA4, 0xFF⟩, ⟨"SELECT-B", CmdKind.select⟩)] 0 0xA4
      ⟨"SELECT-B", CmdKind.select⟩ (by decide)⟩

/-- C9: the suppression toggles influence only which records are emitted,
never the card state — after any prefix of the event sequence, two runs
differing only in the toggles leave identical runtime states. -/
theorem c9_suppression_never_affects_state (cfg1 cfg2 : TracerCfg)
    (reg : Registry) (rs : RuntimeState) (evs : List Event) (n : Nat) :
    (traceRun cfg1 reg rs (evs.take n)).finalState =
      (traceRun cfg2 reg rs (evs.take n)).finalState :=
  traceRun_finalState_cfg_indep cfg1 cfg2 reg rs (evs.take n)

/-- C10: in every loop iteration the decoder and `process` are applied to the
event's exchange exactly when the event is not a CardReset — a reset causes
no decoder invocation, no interpreter instantiation and no record. -/
theorem c10_decode_iff_not_reset (cfg : TracerCfg) (reg : Registry)
    (rs : RuntimeState) (ev : Event) :
    (step cfg reg rs ev).decoded = (eventApdu ev).toList
    ∧ (step cfg reg rs ev).processedOn = (eventApdu ev).toList
    ∧ ((step cfg reg rs ev).decoded = [] ↔ ev = Event.cardReset)
    ∧ ((step cfg reg rs ev).pre = none ↔ ev = Event.cardReset) := by
  cases ev <;> simp [step_apdu, step_cardReset, eventApdu]

/-- C7: per-exchange problems are absorbed and rendered as record text —
every arriving exchange yields exactly one pre-filter record (the loop never
throws past an exchange) and an exchange that was decoded is never silently
dropped: the emitted records are exactly the pre-filter records not
suppressed by configuration. -/
theorem c7_absorbed_never_silently_dropped (cfg : TracerCfg) (reg : Registry)
    (rs : RuntimeState) (evs : List Event) :
    (traceRun cfg reg rs evs).emitted =
      (traceRun cfg reg rs evs).pre.filter (fun pc => !suppressed cfg pc)
    ∧ (traceRun cfg reg rs evs).pre.length = (evs.filterMap eventApdu).length := by
  refine ⟨traceRun_emitted_filter cfg reg rs evs, ?_⟩
  calc (traceRun cfg reg rs evs).pre.length
      = ((traceRun cfg reg rs evs).pre.map ProcessedCmd.apdu).length := by
        rw [List.length_map]
    _ = (evs.filterMap eventApdu).length := by rw [traceRun_pre_map]

/-- C8: the trace-loop state machine terminates cleanly on end-of-stream and
only then: from `running` with no pending events one step reaches
`terminated`; with a pending event one step stays `running`; `terminated`
is absorbing; and a full run over any finite stream lands in `terminated`
carrying exactly the emitted records. -/
theorem c8_clean_termination_on_eof (cfg : TracerCfg) (reg : Registry) :
    (∀ rs recs, loopStep cfg reg (LoopState.running rs [] recs) =
      LoopState.terminated recs)
    ∧ (∀ recs, loopStep cfg reg (LoopState.terminated recs) =
        LoopState.terminated recs)
    ∧ (∀ rs ev evs recs, ∃ rs2 recs2,
        loopStep cfg reg (LoopState.running rs (ev :: evs) recs) =
          LoopState.running rs2 evs recs2)
    ∧ (∀ rs evs recs,
        (loopStep cfg reg)^[evs.length + 1] (LoopState.running rs evs recs) =
          LoopState.terminated (recs ++ (traceRun cfg reg rs evs).emitted)) :=
  ⟨fun _ _ => rfl, fun _ => rfl, fun _ _ _ _ => ⟨_, _, rfl⟩,
    fun rs evs recs => loopStep_iterate cfg reg evs rs recs⟩

/-- C3: an exchange whose (class, instruction) pair has no registry match is
decoded to the generic/unknown interpreter — never aborting the loop — whose
processing mutates no state, and the iteration produces exactly one record,
marked as an unrecognized command, which the suppression filter never drops. -/
theorem c3_unknown_command_not_fatal (cfg : TracerCfg) (reg : Registry)
    (rs : RuntimeState) (a : Apdu) (h : lookup reg a.cla a.ins = none) :
    ApduDecoder.input reg a = { name := "unknown", kind := CmdKind.unknown, apdu := a }
    ∧ (step cfg reg rs (Event.apdu a)).rs = rs
    ∧ (step cfg reg rs (Event.apdu a)).pre =
        some (mkRecord { name := "unknown", kind := CmdKind.unknown, apdu := a }
          (pathString rs.tree (rs.cursor a.lchan)) "unrecognized command")
    ∧ (step cfg reg rs (Event.apdu a)).emitted = (step cfg reg rs (Event.apdu a)).pre := by
  have hin : ApduDecoder.input reg a =
      { name := "unknown", kind := CmdKind.unknown, apdu := a } := by
    simp [ApduDecoder.input, h]
  refine ⟨hin, ?_, ?_, ?_⟩ <;>
    simp [step_apdu, hin, Interp.process, suppressed, isSelectKind, isStatusKind, mkRecord]

/-- A sample card tree: the master file with one dedicated file. -/
def mfTree : CardNode := .mk "MF" [.mk "DF_TELECOM" []]

/-- A sample runtime state seeded with `mfTree`, all channels at the root. -/
def rs0 : RuntimeState := ⟨mfTree, []⟩

/-- A sample registry with a SELECT and a STATUS registration. -/
def regSample : Registry :=
  [(⟨0, 0xA4, 0xFF⟩, ⟨"SELECT", CmdKind.select⟩),
   (⟨0x80, 0xF2, 0xFF⟩, ⟨"STATUS", CmdKind.status⟩)]

/-- A sample exchange carrying an instruction byte registered nowhere. -/
def aUnknown : Apdu := ⟨0, 0x10, 0, 0, 0, "", 0x9000⟩

/-- C3 witness: at a concrete unregistered exchange the step leaves the state
alone and emits the unrecognized-command record. -/
theorem c3_unknown_command_not_fatal_witness :
    lookup regSample aUnknown.cla aUnknown.ins = none
    ∧ ((step defaultCfg regSample rs0 (Event.apdu aUnknown)).rs = rs0
       ∧ (step defaultCfg regSample rs0 (Event.apdu aUnknown)).emitted =
           (step defaultCfg regSample rs0 (Event.apdu aUnknown)).pre) :=
  ⟨by decide,
    (c3_unknown_command_not_fatal defaultCfg regSample rs0 aUnknown (by decide)).2.1,
    (c3_unknown_command_not_fatal defaultCfg regSample rs0 aUnknown (by decide)).2.2.2⟩

/-- C4: a selection command whose target does not resolve leaves the channel
cursor (and the whole runtime state) unchanged, produces a record whose
processed text reports the failed lookup, and that record's path string
still shows the pre-selection location; it is emitted exactly when selection
output is not suppressed. -/
theorem c4_failed_selection_keeps_cursor (cfg : TracerCfg) (reg : Registry)
    (rs : RuntimeState) (a : Apdu) (d : CommandDescriptor)
    (hl : lookup reg a.cla a.ins = some d) (hk : d.kind = CmdKind.select)
    (hmiss : rs.selectChild a.lchan a.data = none) :
    (step cfg reg rs (Event.apdu a)).rs = rs
    ∧ (step cfg reg rs (Event.apdu a)).pre =
        some (mkRecord { name := d.name, kind := CmdKind.select, apdu := a }
          (pathString rs.tree (rs.cursor a.lchan))
          ("SELECT " ++ a.data ++ ": file not found"))
    ∧ (step cfg reg rs (Event.apdu a)).emitted =
        (if cfg.suppress_select = true then none
         else (step cfg reg rs (Event.apdu a)).pre) := by
  have hin : ApduDecoder.input reg a =
      { name := d.name, kind := CmdKind.select, apdu := a } := by
    simp [ApduDecoder.input, hl, hk]
  have hp : (ApduDecoder.input reg a).process rs =
      (rs, mkRecord { name := d.name, kind := CmdKind.select, apdu := a }
        (pathString rs.tree (rs.cursor a.lchan))
        ("SELECT " ++ a.data ++ ": file not found")) := by
    rw [hin]
    simp [Interp.process, processSelect, hmiss]
  refine ⟨?_, ?_, ?_⟩
  · simp [step_apdu, hp]
  · simp [step_apdu, hp]
  · cases hcs : cfg.suppress_select <;>
      simp [step_apdu, hp, suppressed, isSelectKind, isStatusKind, mkRecord, hcs]

/-- A root-only runtime state, per the spec's failed-selection scenario. -/
def rootOnly : RuntimeState := ⟨.mk "MF" [], []⟩

/-- A selection exchange targeting an identifier that exists nowhere. -/
def aMiss : Apdu := ⟨0, 0xA4, 0, 0, 0, "NONEXISTENT", 0x6A82⟩

/-- C4 witness: selecting NONEXISTENT against the root-only tree keeps the
state and yields the failure record showing the root path. -/
theorem c4_failed_selection_keeps_cursor_witness :
    lookup regSample aMiss.cla aMiss.ins = some ⟨"SELECT", CmdKind.select⟩
    ∧ rootOnly.selectChild aMiss.lchan aMiss.data = none
    ∧ (step ⟨false, true⟩ regSample rootOnly (Event.apdu aMiss)).rs = rootOnly
    ∧ (step ⟨false, true⟩ regSample rootOnly (Event.apdu aMiss)).pre =
        some (mkRecord ⟨"SELECT", CmdKind.select, aMiss⟩
          (pathString rootOnly.tree (rootOnly.cursor aMiss.lchan))
          ("SELECT " ++ aMiss.data ++ ": file not found")) :=
  ⟨by decide, rfl,
    (c4_failed_selection_keeps_cursor ⟨false, true⟩ regSample rootOnly aMiss
      ⟨"SELECT", CmdKind.select⟩ (by decide) rfl rfl).1,
    (c4_failed_selection_keeps_cursor ⟨false, true⟩ regSample rootOnly aMiss
      ⟨"SELECT", CmdKind.select⟩ (by decide) rfl rfl).2.1⟩

/-- A kind is the SELECT family exactly when `isSelectKind` says so. -/
theorem isSelectKind_eq (k : CmdKind) : isSelectKind k = true ↔ k = CmdKind.select := by
  cases k <;> simp [isSelectKind]

/-- A kind is the STATUS family exactly when `isStatusKind` says so. -/
theorem isStatusKind_eq (k : CmdKind) : isStatusKind k = true ↔ k = CmdKind.status := by
  cases k <;> simp [isStatusKind]

/-- An event that is an exchange decoding to the SELECT or STATUS family. -/
def selOrStatusEvent (reg : Registry) : Event → Bool
  | .cardReset => false
  | .apdu a =>
    isSelectKind (ApduDecoder.input reg a).kind ||
      isStatusKind (ApduDecoder.input reg a).kind

/-- Over a stream of selection/status exchanges only, every pre-filter record
belongs to the SELECT or STATUS family. -/
theorem traceRun_pre_kinds (cfg : TracerCfg) (reg : Registry) (rs : RuntimeState)
    (evs : List Event) (h : ∀ e ∈ evs, selOrStatusEvent reg e = true) :
    ∀ pc ∈ (traceRun cfg reg rs evs).pre,
      pc.kind = CmdKind.select ∨ pc.kind = CmdKind.status := by
  induction evs generalizing rs with
  | nil => intro pc hpc; simp [traceRun_nil] at hpc
  | cons ev evs ih =>
    cases ev with
    | cardReset =>
      have hc := h Event.cardReset (by simp)
      simp [selOrStatusEvent] at hc
    | apdu a =>
      intro pc hpc
      rw [traceRun_cons] at hpc
      simp only [step_apdu, Option.toList_some, List.singleton_append,
        List.mem_cons] at hpc
      rcases hpc with hpc | hpc
      · have ha := h (Event.apdu a) (by simp)
        simp only [selOrStatusEvent, Bool.or_eq_true] at ha
        subst hpc
        rw [Interp.process_snd_kind]
        rcases ha with ha | ha
        · exact Or.inl ((isSelectKind_eq _).mp ha)
        · exact Or.inr ((isStatusKind_eq _).mp ha)
      · exact ih _ (fun e he => h e (List.mem_cons_of_mem _ he)) pc hpc

/-- C5: both suppression toggles default to suppressed; with the defaults a
stream of only selection and status exchanges emits zero records, and
flipping exactly one toggle emits exactly the records of the matching
command family and no others. -/
theorem c5_suppression_defaults_and_exact (reg : Registry) (rs : RuntimeState)
    (evs : List Event) (h : ∀ e ∈ evs, selOrStatusEvent reg e = true) :
    defaultCfg = { suppress_select := true, suppress_status := true }
    ∧ (traceRun defaultCfg reg rs evs).emitted = []
    ∧ (traceRun ⟨false, true⟩ reg rs evs).emitted =
        (traceRun ⟨false, true⟩ reg rs evs).pre.filter (fun pc => isSelectKind pc.kind)
    ∧ (traceRun ⟨true, false⟩ reg rs evs).emitted =
        (traceRun ⟨true, false⟩ reg rs evs).pre.filter (fun pc => isStatusKind pc.kind) := by
  refine ⟨rfl, ?_, ?_, ?_⟩
  · rw [traceRun_emitted_filter]
    refine List.filter_eq_nil_iff.mpr ?_
    intro pc hpc
    rcases traceRun_pre_kinds defaultCfg reg rs evs h pc hpc with hk | hk <;>
      simp [suppressed, defaultCfg, hk, isSelectKind, isStatusKind]
  · rw [traceRun_emitted_filter]
    refine List.filter_congr ?_
    intro pc hpc
    rcases traceRun_pre_kinds ⟨false, true⟩ reg rs evs h pc hpc with hk | hk <;>
      simp [suppressed, hk, isSelectKind, isStatusKind]
  · rw [traceRun_emitted_filter]
    refine List.filter_congr ?_
    intro pc hpc
    rcases traceRun_pre_kinds ⟨true, false⟩ reg rs evs h pc hpc with hk | hk <;>
      simp [suppressed, hk, isSelectKind, isStatusKind]

/-- A sample selection exchange resolving to the SELECT descriptor. -/
def aSel : Apdu := ⟨0, 0xA4, 0, 0, 0, "DF_TELECOM", 0x9000⟩

/-- A sample status exchange resolving to the STATUS descriptor. -/
def aStat : Apdu := ⟨0x80, 0xF2, 0, 0, 0, "", 0x9000⟩

/-- A sample stream of one selection and one status exchange. -/
def evsSample : List Event := [Event.apdu aSel, Event.apdu aStat]

/-- C5 witness: over the concrete selection-and-status stream, the default
configuration emits no records. -/
theorem c5_suppression_defaults_and_exact_witness :
    (∀ e ∈ evsSample, selOrStatusEvent regSample e = true)
    ∧ (traceRun defaultCfg regSample rs0 evsSample).emitted = [] :=
  ⟨by decide,
    (c5_suppression_defaults_and_exact regSample rs0 evsSample (by decide)).2.1⟩

end PySimTrace
